import Mathlib

/-!
Verification of the HR expense-claim portal backend
(`src/Backend/server.js` and `src/unnamed/part_000`, an Express/pg server).

The server's request handlers are shallowly embedded as pure Lean
functions over an explicit database state (the `claims` and `documents`
tables), an explicit file store (the `Uploads` directory), an explicit
clock, and an explicit failure oracle for `pool.query` calls.  JavaScript
builtins used by the handlers (`Date`, `parseFloat`, number-to-string
conversion, the two regular expressions) are modelled by executable Lean
functions documented at their definitions.
-/

namespace ClaimPortal

/-! ## Modelling the JavaScript clock and `Date` arithmetic

A JS `Date` instant is decomposed into its civil calendar fields
(`getFullYear`, `getMonth`, `getDate`) plus the milliseconds elapsed
since midnight of that day.  `month0` is zero-based, as in JS. -/

structure JSTime where
  year : Int
  month0 : Int
  day : Int
  msOfDay : Int
deriving DecidableEq

def msPerDay : Int := 86400000

/-- Days-since-epoch contribution of a whole (computational) year in the
proleptic Gregorian calendar: `365·y` plus the accumulated leap days. -/
def yearDays (y : Int) : Int := 365 * y + y / 4 - y / 100 + y / 400

/-- Day-of-computational-year offset of month `month0` (zero-based),
counting from March so that a possible leap day comes last. -/
def monthOffset (month0 : Int) : Int := (153 * ((month0 + 10) % 12) + 2) / 5

/-- Days since the Unix epoch of the civil date `(year, month0, day)`
(`month0` zero-based).  A `day` beyond the length of the month overflows
into the following months, exactly as JS `Date` normalises its fields. -/
def civilDays (year month0 day : Int) : Int :=
  yearDays (if month0 < 2 then year - 1 else year) + monthOffset month0 + day - 1 - 719468

/-- Milliseconds since the Unix epoch of a `JSTime`, i.e. the value a JS
`Date` compares by. -/
def instant (t : JSTime) : Int :=
  civilDays t.year t.month0 t.day * msPerDay + t.msOfDay

/-- The instant produced by `d.setMonth(d.getMonth() - 3)` on a copy of
`t` (server.js line 149-150): the month field goes back three, the year
absorbs the borrow, the day-of-month and time of day are kept, and an
out-of-range day rolls forward into the next month. -/
def threeMonthsAgo (t : JSTime) : Int :=
  civilDays (t.year + (t.month0 - 3) / 12) ((t.month0 - 3) % 12) t.day * msPerDay + t.msOfDay

/-- Well-formedness of a clock reading: calendar fields in range. -/
def JSTime.wf (t : JSTime) : Prop :=
  0 ≤ t.month0 ∧ t.month0 < 12 ∧ 1 ≤ t.day ∧ 0 ≤ t.msOfDay ∧ t.msOfDay < msPerDay

/-! ## Modelling the string-level JS builtins used by validation -/

/-- The character for decimal digit `n` (`0 ≤ n ≤ 9`). -/
def digitChar (n : Nat) : Char := Char.ofNat (48 + n)

/-- Decimal digit list of `n`, most significant first; `fuel` bounds the
recursion and is always supplied as `n + 1`. -/
def decDigitsAux : Nat → Nat → List Char
  | 0, _ => []
  | fuel + 1, n =>
    if n < 10 then [digitChar n]
    else decDigitsAux fuel (n / 10) ++ [digitChar (n % 10)]

def decDigits (n : Nat) : List Char := decDigitsAux (n + 1) n

/-- Decimal numeral of a natural number, modelling JS number-to-string
conversion for non-negative integers (as in a template literal). -/
def natStr (n : Nat) : String := ⟨decDigits n⟩

/-- Decimal numeral of an integer, modelling JS number-to-string
conversion for integers. -/
def intStr (i : Int) : String := if i < 0 then "-" ++ natStr i.natAbs else natStr i.toNat

/-- The claim identifier the handler builds (server.js line 161):
the template literal producing `CLM-<year>-<suffix>`.  `rand` stands for
`Math.floor(1000 + Math.random() * 9000)`, which lies in `[1000, 9999]`. -/
def mkClaimId (year : Int) (rand : Nat) : String :=
  "CLM-" ++ intStr year ++ "-" ++ natStr rand

/-- Value of a list of decimal digit characters, most significant first. -/
def digitsToNat (cs : List Char) : Nat :=
  cs.foldl (fun a c => 10 * a + (c.toNat - 48)) 0

/-- The employee-id regular expression of the source,
matching the anchored pattern A T S 0, one digit 1-9, two digits. -/
def empIdOk (s : String) : Bool :=
  match s.toList with
  | ['A', 'T', 'S', '0', a, b, c] =>
      ('1' ≤ a && a ≤ '9') && b.isDigit && c.isDigit
  | _ => false

/-- Characters admitted in the local part of the email pattern of the
source: ASCII letters, digits, and the punctuation of its class. -/
def emailChar (c : Char) : Bool :=
  c.isAlpha || c.isDigit || c == '.' || c == '_' || c == '%' || c == '+' || c == '-'

/-- Whether `suffix` is a suffix of `cs`. -/
def endsList (suffix cs : List Char) : Bool :=
  if suffix.length ≤ cs.length then cs.drop (cs.length - suffix.length) == suffix
  else false

/-- Whether `l` is a valid (non-empty) email local part. -/
def localOk (l : List Char) : Bool := !l.isEmpty && l.all emailChar

/-- The email regular expression of the source: one or more
characters of the class, then a literal at-sign, then `gmail.com` or
`outlook.com`.  The class excludes the at-sign, so matching is exactly
"ends with one of the two domains and everything before it is a
non-empty run of class characters". -/
def emailOk (s : String) : Bool :=
  let cs := s.toList
  (endsList "@gmail.com".toList cs && localOk (cs.take (cs.length - 10))) ||
  (endsList "@outlook.com".toList cs && localOk (cs.take (cs.length - 12)))

/-- A finite decimal number, as `parseFloat` produces for a plain
decimal numeral: the value `num / den`, with `den` a positive power of
ten (the scale of the fractional part). -/
structure JSNum where
  num : Int
  den : Int
deriving DecidableEq

/-- The rational value of a `JSNum`. -/
def JSNum.val (x : JSNum) : Rat := (x.num : Rat) / (x.den : Rat)

/-- Sign handling of `parseFloat`: a leading minus or plus sign is
consumed; the first component tells whether the number is negated. -/
def parseSign (cs : List Char) : Bool × List Char :=
  match cs with
  | '-' :: r => (true, r)
  | '+' :: r => (false, r)
  | r => (false, r)

/-- The fractional digit run of `parseFloat`: the digits right after a
leading decimal point, if present. -/
def fracDigits (cs : List Char) : List Char :=
  match cs with
  | '.' :: r => r.takeWhile Char.isDigit
  | _ => []

/-- Modelled from the JS builtin `parseFloat`, restricted to plain
decimal numerals (optional sign, integer digits, optional fractional
digits; no exponent or whitespace handling): `none` stands for `NaN`,
and the parsed value is represented exactly.  As in JS, a longest
numeric prefix is parsed and trailing characters are ignored. -/
def parseFloat (s : String) : Option JSNum :=
  let rest := (parseSign s.toList).2
  let intPart := rest.takeWhile Char.isDigit
  let fracPart := fracDigits (rest.drop intPart.length)
  if intPart.isEmpty && fracPart.isEmpty then none
  else
    let den : Int := (10 : Int) ^ fracPart.length
    let mag : Int := digitsToNat intPart * den + digitsToNat fracPart
    some ⟨if (parseSign s.toList).1 then -mag else mag, den⟩

/-- Whether `(year, m)` (with `m` one-based) is within the length of the
month, for validating an ISO date string the way JS `Date` parsing does. -/
def daysInMonth (year : Int) (m : Nat) : Nat :=
  if m == 2 then (if (year % 4 == 0 && year % 100 != 0) || year % 400 == 0 then 29 else 28)
  else if m == 4 || m == 6 || m == 9 || m == 11 then 30
  else 31

/-- Split a character list at every dash. -/
def splitDash : List Char → List (List Char)
  | [] => [[]]
  | c :: rest =>
    match splitDash rest with
    | [] => [[c]]
    | g :: gs => if c == '-' then [] :: g :: gs else (c :: g) :: gs

/-- Modelled from the JS builtin `new Date(string)`, restricted to ISO
`YYYY-MM-DD` date-only strings: such a string parses to UTC midnight of
that civil date, out-of-range month or day fields yield an Invalid Date
(`none`), and any other shape is not modelled (also `none`). -/
def parseClaimDate (s : String) : Option JSTime :=
  match splitDash s.toList with
  | [ys, ms, ds] =>
    if ys.length == 4 && ys.all Char.isDigit && ms.length == 2 && ms.all Char.isDigit
        && ds.length == 2 && ds.all Char.isDigit then
      let m := digitsToNat ms
      let d := digitsToNat ds
      let y : Int := Int.ofNat (digitsToNat ys)
      if 1 ≤ m ∧ m ≤ 12 ∧ 1 ≤ d ∧ d ≤ daysInMonth y m then
        some ⟨y, Int.ofNat (m - 1), Int.ofNat d, 0⟩
      else none
    else none
  | _ => none

/-! ## Data model: the two tables, the file store, the request inputs -/

/-- One row of the `claims` table. -/
structure ClaimRow where
  claim_id : String
  employee_name : String
  employee_email : String
  employee_id : String
  department : String
  claim_date : String
  amount : JSNum
  description : String
  type : String
  status : String
  created_at : Int
  updated_at : Int
deriving DecidableEq

/-- One row of the `documents` table (`id` is the SERIAL key). -/
structure DocumentRow where
  id : Nat
  claim_id : String
  file_name : String
  file_path : String
  uploaded_at : Int
deriving DecidableEq

/-- The relational store: both tables plus the next SERIAL value. -/
structure DB where
  claims : List ClaimRow
  documents : List DocumentRow
  nextDocId : Nat
deriving DecidableEq

/-- The uploads directory, as a map from stored path to file content. -/
abbrev FileStore := List (String × String)

/-- Content of the file at `p`, if it exists (`fs.readFile`-like view). -/
def fsLookup (fs : FileStore) (p : String) : Option String :=
  (fs.find? (fun e => e.1 == p)).map (fun e => e.2)

/-- `fs.existsSync p`. -/
def fsHas (fs : FileStore) (p : String) : Bool := (fsLookup fs p).isSome

/-- `fs.unlinkSync p`. -/
def fsRemove (fs : FileStore) (p : String) : FileStore :=
  List.filter (fun e => !(e.1 == p)) fs

/-- One uploaded-file descriptor as multer hands it to the handler. -/
structure FileDesc where
  originalname : String
  path : String
deriving DecidableEq

/-- The parsed request body of `POST /api/claims`; a field that is
absent or empty is represented by `""` (both are falsy in JS). -/
structure Body where
  empName : String
  empEmail : String
  empId : String
  department : String
  claimDate : String
  amount : String
  description : String
  type : String
deriving DecidableEq

/-! ## The validation chain of `POST /api/claims` (server.js 126-159) -/

/-- The required-field presence check (line 126): true when some field
is falsy. -/
def requiredMissing (b : Body) : Bool :=
  b.empName == "" || b.empEmail == "" || b.empId == "" || b.department == "" ||
  b.claimDate == "" || b.amount == "" || b.description == "" || b.type == ""

/-- The amount check (lines 141-145): `isNaN || ≤ 0 || > 50000` on the
`parseFloat` result; the comparisons on the value `num / den` are
written cross-multiplied by the positive denominator. -/
def amountBad (v : Option JSNum) : Bool :=
  match v with
  | none => true
  | some x => decide (x.num ≤ 0) || decide (50000 * x.den < x.num)

/-- The claim-date check (lines 147-154): rejected when the parsed date
is after `today` or before `threeMonthsAgo`.  An Invalid Date (`none`)
compares false on both sides in JS, hence passes. -/
def dateBad (cd : Option JSTime) (now : JSTime) : Bool :=
  match cd with
  | none => false
  | some dt => decide (instant now < instant dt) || decide (instant dt < threeMonthsAgo now)

def msgRequired : String := "All fields are required"
def msgEmpId : String := "Employee ID must be ATS0 followed by 3 digits (e.g., ATS0123)"
def msgEmail : String := "Email must be a valid @gmail.com or @outlook.com address"
def msgAmount : String := "Amount must be between ₹0.01 and ₹50,000"
def msgDate : String := "Claim date must be within the last 3 months and not in the future"
def msgNoDocs : String := "At least one document is required"
def msgServerError : String := "Server error while submitting claim"

/-- The sequence of validation checks of the POST handler, in source
order, returning the first error message, or `none` when every check
passes. -/
def validateClaim (b : Body) (files : List FileDesc) (now : JSTime) : Option String :=
  if requiredMissing b then some msgRequired
  else if !empIdOk b.empId then some msgEmpId
  else if !emailOk b.empEmail then some msgEmail
  else if amountBad (parseFloat b.amount) then some msgAmount
  else if dateBad (parseClaimDate b.claimDate) now then some msgDate
  else if files.isEmpty then some msgNoDocs
  else none

/-! ## The POST handler (server.js / part_000 `POST /api/claims`)

Database writes can fail (connection loss, constraint violation); the
failure oracle `qf` tells whether the `k`-th `pool.query` call of the
request throws (`k = 0` is the claim insert, later ones the document
inserts).  A thrown query lands in the handler's `catch` block, which
unlinks every uploaded file that exists and answers a generic 500. -/

inductive PostResp where
  | badRequest (msg : String)
  | serverError (msg : String)
  | created (claimId : String) (documents : List (String × String))
deriving DecidableEq

structure PostOut where
  resp : PostResp
  db : DB
  fs : FileStore
deriving DecidableEq

/-- The `catch`-block cleanup of part_000 (lines 227-238): for each
uploaded file, unlink it if it still exists. -/
def cleanupFiles (fs : FileStore) (files : List FileDesc) : FileStore :=
  files.foldl (fun a f => if fsHas a f.path then fsRemove a f.path else a) fs

/-- Append one document row for file `f` of claim `cid`. -/
def dbInsertDoc (db : DB) (cid : String) (f : FileDesc) (nowI : Int) : DB :=
  { db with
    documents := db.documents ++ [⟨db.nextDocId, cid, f.originalname, f.path, nowI⟩],
    nextDocId := db.nextDocId + 1 }

/-- The document-insert loop of part_000 (lines 191-212): each file is
skipped when its stored path no longer exists on disk, otherwise one
`INSERT INTO documents` runs (query number `k`); a failing insert throws
with the database state reached so far. -/
def docLoop (cid : String) (nowI : Int) (qf : Nat → Bool) :
    List FileDesc → DB → FileStore → Nat → Except DB DB
  | [], db, _, _ => .ok db
  | f :: rest, db, fs, k =>
    if fsHas fs f.path then
      if qf k then .error db
      else docLoop cid nowI qf rest (dbInsertDoc db cid f nowI) fs (k + 1)
    else docLoop cid nowI qf rest db fs k

/-- The claim row the handler inserts (server.js lines 164-182): the
request's fields, the parsed amount, status `pending`, and
`created_at = updated_at = new Date()`. -/
def newClaimRow (b : Body) (now : JSTime) (cid : String) : ClaimRow :=
  ⟨cid, b.empName, b.empEmail, b.empId, b.department, b.claimDate,
   (parseFloat b.amount).getD ⟨0, 1⟩, b.description, b.type, "pending",
   instant now, instant now⟩

/-- The POST `/api/claims` handler body: validation in source order,
then the claim `INSERT` (which throws on a failure or on a primary-key
collision with an existing `claim_id`), then the document-insert loop;
any throw is answered by the `catch` block. -/
def postClaims (b : Body) (files : List FileDesc) (now : JSTime) (rand : Nat)
    (qf : Nat → Bool) (db : DB) (fs : FileStore) : PostOut :=
  match validateClaim b files now with
  | some e => ⟨.badRequest e, db, fs⟩
  | none =>
    if qf 0 || db.claims.any (fun c => c.claim_id == mkClaimId now.year rand) then
      ⟨.serverError msgServerError, db, cleanupFiles fs files⟩
    else
      match docLoop (mkClaimId now.year rand) (instant now) qf files
          { db with claims := db.claims ++ [newClaimRow b now (mkClaimId now.year rand)] } fs 1 with
      | .error dbAtThrow => ⟨.serverError msgServerError, dbAtThrow, cleanupFiles fs files⟩
      | .ok db2 => ⟨.created (mkClaimId now.year rand)
          (files.map fun f => (f.originalname, f.path)), db2, fs⟩

/-- The multer middleware `upload.array('documents', 5)` composed with
the handler: a request carrying more than 5 files makes multer throw
`LIMIT_UNEXPECTED_FILE` ("Unexpected field"), which the error middleware
of part_000 answers with a 400 before the handler body ever runs. -/
def postRequest (b : Body) (files : List FileDesc) (now : JSTime) (rand : Nat)
    (qf : Nat → Bool) (db : DB) (fs : FileStore) : PostOut :=
  if files.length > 5 then ⟨.badRequest "Unexpected field", db, fs⟩
  else postClaims b files now rand qf db fs

/-! ## `GET /api/claims` (part_000 lines 245-292)

The SQL `WHERE` clause built from the optional query parameters, the
`ORDER BY created_at DESC`, and the per-claim documents lookup are
embedded directly.  `ORDER BY` is modelled as a sorted permutation of
the filtered rows, computed by insertion sort. -/

/-- A document as projected by the embedded lookup
(`SELECT id, file_name, file_path FROM documents WHERE claim_id = $1`). -/
structure DocView where
  id : Nat
  file_name : String
  file_path : String
deriving DecidableEq

/-- A claim row together with its embedded documents, as the list
endpoint returns it. -/
structure EnrichedClaim where
  claim : ClaimRow
  documents : List DocView
deriving DecidableEq

/-- The dynamically built `WHERE` clause: each filter is applied only
when the query parameter is truthy (non-empty), and present filters are
conjoined. -/
def claimMatches (eid cid st : String) (c : ClaimRow) : Bool :=
  (eid == "" || c.employee_id == eid) &&
  (cid == "" || c.claim_id == cid) &&
  (st == "" || c.status == st)

/-- The embedded documents lookup for one claim id. -/
def docsFor (db : DB) (cid : String) : List DocView :=
  (db.documents.filter (fun d => d.claim_id == cid)).map
    (fun d => ⟨d.id, d.file_name, d.file_path⟩)

/-- Descending order on `created_at`, the sort key of the endpoint. -/
def createdDesc (a b : ClaimRow) : Prop := b.created_at ≤ a.created_at

instance : DecidableRel createdDesc := fun a b => Int.decLe b.created_at a.created_at

instance : IsTotal ClaimRow createdDesc :=
  ⟨fun a b => le_total b.created_at a.created_at⟩

instance : IsTrans ClaimRow createdDesc :=
  ⟨fun _ _ _ h1 h2 => le_trans h2 h1⟩

/-- The `GET /api/claims` handler: validates a present `employee_id`
filter, selects the matching rows ordered by `created_at` descending,
and enriches each with its documents.  `.error` is the 400 response. -/
def listClaims (eid cid st : String) (db : DB) : Except String (List EnrichedClaim) :=
  if eid != "" && !empIdOk eid then
    .error "Employee ID must be ATS0 followed by 3 digits"
  else
    .ok (((db.claims.filter (claimMatches eid cid st)).insertionSort createdDesc).map
      (fun c => ⟨c, docsFor db c.claim_id⟩))

/-! ## `PATCH /api/claims/:claimId` (server.js lines 267-298) -/

inductive PatchResp where
  | badRequest (msg : String)
  | notFound (msg : String)
  | updated (row : ClaimRow)
deriving DecidableEq

structure PatchOut where
  resp : PatchResp
  db : DB
deriving DecidableEq

/-- The single-row update of the SQL `UPDATE ... SET status, updated_at`. -/
def applyUpd (st : String) (nowI : Int) (c : ClaimRow) : ClaimRow :=
  { c with status := st, updated_at := nowI }

/-- The PATCH handler: the new status must be `approved` or `rejected`,
then the `UPDATE ... WHERE claim_id = $3 RETURNING *` runs; an empty
returned row set is answered 404, otherwise the first returned row is
echoed back. -/
def updateStatus (claimId st : String) (nowI : Int) (db : DB) : PatchOut :=
  if !(st == "approved" || st == "rejected") then
    ⟨.badRequest "Status must be approved or rejected", db⟩
  else
    let db' : DB :=
      { db with claims :=
          db.claims.map (fun c => if c.claim_id == claimId then applyUpd st nowI c else c) }
    match (db.claims.filter (fun c => c.claim_id == claimId)).map (applyUpd st nowI) with
    | [] => ⟨.notFound "Claim not found", db'⟩
    | r :: _ => ⟨.updated r, db'⟩

/-! ## `GET /api/documents/:documentId` (part_000 lines 325-348) -/

inductive FetchResp where
  | notFound (msg : String)
  | ok (content : String)
deriving DecidableEq

/-- The document-fetch handler: look up the row, 404 when absent, 404
(file-not-found variant) when the stored path no longer exists on disk,
otherwise send the file's bytes. -/
def fetchDocument (docId : Nat) (db : DB) (fs : FileStore) : FetchResp :=
  match db.documents.filter (fun d => d.id == docId) with
  | [] => .notFound "Document not found"
  | d :: _ =>
    match fsLookup fs d.file_path with
    | none => .notFound "File not found on server"
    | some content => .ok content

/-- The document rows the insert loop produces for claim `cid` when
every file is on disk, with ids starting at `idStart`. -/
def mkDocs (cid : String) (nowI : Int) (idStart : Nat) : List FileDesc → List DocumentRow
  | [] => []
  | f :: rest => ⟨idStart, cid, f.originalname, f.path, nowI⟩ :: mkDocs cid nowI (idStart + 1) rest

/-- Whether a string has the shape `CLM-` followed by four decimal
digits, a dash, and four decimal digits (the claim-id format
`CLM-<4-digit-year>-<4 digits>`). -/
def clmIdOk (s : String) : Bool :=
  match s.toList with
  | 'C' :: 'L' :: 'M' :: '-' :: y1 :: y2 :: y3 :: y4 :: '-' :: n1 :: n2 :: n3 :: n4 :: [] =>
      y1.isDigit && y2.isDigit && y3.isDigit && y4.isDigit &&
      n1.isDigit && n2.isDigit && n3.isDigit && n4.isDigit
  | _ => false

/-! ## Theorems.  First, the calendar-arithmetic key lemma -/

/-- Going back three calendar months moves the civil day number strictly
down (by at least one day), for any day-of-month field. -/
theorem back3_add_one_le (t : JSTime) (h0 : 0 ≤ t.month0) (h1 : t.month0 < 12) :
    civilDays (t.year + (t.month0 - 3) / 12) ((t.month0 - 3) % 12) t.day + 1
      ≤ civilDays t.year t.month0 t.day := by
  obtain ⟨y, m0, d, tod⟩ := t
  simp only [civilDays, yearDays, monthOffset] at *
  interval_cases m0 <;> norm_num <;> omega

/-! ## Helper lemmas about the file store and the document loop -/

theorem fsHas_iff (fs : FileStore) (p : String) :
    fsHas fs p = true ↔ ∃ e ∈ fs, e.1 = p := by
  simp [fsHas, fsLookup, List.find?_isSome]

theorem fsHas_remove_self (fs : FileStore) (p : String) : fsHas (fsRemove fs p) p = false := by
  rw [Bool.eq_false_iff, Ne, fsHas_iff]
  rintro ⟨e, he, hep⟩
  rw [fsRemove, List.mem_filter] at he
  simp [hep] at he

theorem fsHas_remove_le (fs : FileStore) (p q : String) (h : fsHas fs p = false) :
    fsHas (fsRemove fs q) p = false := by
  rw [Bool.eq_false_iff, Ne, fsHas_iff]
  rintro ⟨e, he, hep⟩
  rw [fsRemove, List.mem_filter] at he
  rw [Bool.eq_false_iff, Ne, fsHas_iff] at h
  exact h ⟨e, he.1, hep⟩

theorem cleanupFiles_cons (fs : FileStore) (f : FileDesc) (rest : List FileDesc) :
    cleanupFiles fs (f :: rest) =
      cleanupFiles (if fsHas fs f.path then fsRemove fs f.path else fs) rest := rfl

theorem cleanupFiles_preserves_absent (files : List FileDesc) (fs : FileStore) (p : String)
    (h : fsHas fs p = false) : fsHas (cleanupFiles fs files) p = false := by
  induction files generalizing fs with
  | nil => exact h
  | cons f rest ih =>
    rw [cleanupFiles_cons]
    by_cases hf : fsHas fs f.path
    · simp only [hf, if_true]
      exact ih _ (fsHas_remove_le fs p f.path h)
    · simp only [hf, if_false]
      exact ih _ h

/-- Every uploaded file is gone from the file store after the
`catch`-block cleanup. -/
theorem cleanupFiles_removes (files : List FileDesc) (fs : FileStore) (f : FileDesc)
    (hf : f ∈ files) : fsHas (cleanupFiles fs files) f.path = false := by
  induction files generalizing fs with
  | nil => cases hf
  | cons g rest ih =>
    rw [cleanupFiles_cons]
    rcases List.mem_cons.mp hf with hf | hf
    · subst hf
      by_cases hg : fsHas fs f.path
      · simp only [hg, if_true]
        exact cleanupFiles_preserves_absent rest _ _ (fsHas_remove_self fs f.path)
      · simp only [hg, if_false]
        rw [Bool.not_eq_true] at hg
        exact cleanupFiles_preserves_absent rest _ _ hg
    · by_cases hg : fsHas fs g.path
      · simp only [hg, if_true]
        exact ih _ hf
      · simp only [hg, if_false]
        exact ih _ hf

theorem mkDocs_length (cid : String) (nowI : Int) (files : List FileDesc) :
    ∀ idStart, (mkDocs cid nowI idStart files).length = files.length := by
  induction files with
  | nil => intro i; rfl
  | cons f rest ih => intro i; simp [mkDocs, ih]

theorem mkDocs_claim_id (cid : String) (nowI : Int) (files : List FileDesc) :
    ∀ idStart d, d ∈ mkDocs cid nowI idStart files → d.claim_id = cid := by
  induction files with
  | nil => intro i d hd; cases hd
  | cons f rest ih =>
    intro i d hd
    rcases List.mem_cons.mp hd with hd | hd
    · subst hd; rfl
    · exact ih _ _ hd

theorem mkDocs_names (cid : String) (nowI : Int) (files : List FileDesc) :
    ∀ idStart, (mkDocs cid nowI idStart files).map DocumentRow.file_name =
      files.map FileDesc.originalname := by
  induction files with
  | nil => intro i; rfl
  | cons f rest ih => intro i; simp [mkDocs, ih]

/-- When the loop finishes without throwing and every file was on disk,
its effect on the database is exactly appending `mkDocs`. -/
theorem docLoop_ok_inv (cid : String) (nowI : Int) (qf : Nat → Bool) (files : List FileDesc) :
    ∀ db fs k db2, (∀ f ∈ files, fsHas fs f.path = true) →
      docLoop cid nowI qf files db fs k = .ok db2 →
      db2 = ⟨db.claims, db.documents ++ mkDocs cid nowI db.nextDocId files,
             db.nextDocId + files.length⟩ := by
  induction files with
  | nil =>
    intro db fs k db2 _ h
    cases h
    simp [mkDocs]
  | cons f rest ih =>
    intro db fs k db2 hstored h
    have hf : fsHas fs f.path = true := hstored f (List.mem_cons_self f rest)
    simp only [docLoop, hf, if_true] at h
    by_cases hq : qf k
    · simp only [hq, if_true] at h
      cases h
    · rw [Bool.not_eq_true] at hq
      simp only [hq, Bool.false_eq_true, if_false] at h
      have hrec := ih _ _ _ _ (fun g hg => hstored g (List.mem_cons_of_mem f hg)) h
      rw [hrec]
      simp only [dbInsertDoc, mkDocs, DB.mk.injEq, List.length_cons, true_and]
      refine ⟨by simp, by omega⟩

/-- A loop whose query oracle never fails finishes without throwing. -/
theorem docLoop_no_fail (cid : String) (nowI : Int) (qf : Nat → Bool)
    (hqf : ∀ j, qf j = false) (files : List FileDesc) :
    ∀ db fs k, ∃ db2, docLoop cid nowI qf files db fs k = .ok db2 := by
  induction files with
  | nil => intro db fs k; exact ⟨db, rfl⟩
  | cons f rest ih =>
    intro db fs k
    rw [docLoop]
    by_cases hf : fsHas fs f.path
    · simp only [hf, if_pos rfl, hqf k, Bool.false_eq_true, if_false]
      exact ih _ _ _
    · rw [Bool.not_eq_true] at hf
      simp only [hf, Bool.false_eq_true, if_false]
      exact ih _ _ _

/-! ## Inversion and success lemmas for the POST handler -/

/-- A failed validation chain short-circuits the handler. -/
theorem postClaims_val_some (b : Body) (files : List FileDesc) (now : JSTime) (rand : Nat)
    (qf : Nat → Bool) (db : DB) (fs : FileStore) (e : String)
    (h : validateClaim b files now = some e) :
    postClaims b files now rand qf db fs = ⟨.badRequest e, db, fs⟩ := by
  unfold postClaims
  rw [h]

/-- A handler run that passes validation, meets no query failure, and
draws a fresh claim id answers 201 with the generated id. -/
theorem postClaims_success (b : Body) (files : List FileDesc) (now : JSTime) (rand : Nat)
    (qf : Nat → Bool) (db : DB) (fs : FileStore)
    (hv : validateClaim b files now = none)
    (hqf : ∀ j, qf j = false)
    (hfresh : ∀ c ∈ db.claims, c.claim_id ≠ mkClaimId now.year rand) :
    ∃ db2, postClaims b files now rand qf db fs =
      ⟨.created (mkClaimId now.year rand) (files.map fun f => (f.originalname, f.path)),
       db2, fs⟩ := by
  unfold postClaims
  rw [hv]
  have hany : db.claims.any (fun c => c.claim_id == mkClaimId now.year rand) = false := by
    rw [List.any_eq_false]
    intro c hc
    simpa using hfresh c hc
  rw [hqf 0, hany]
  simp only [Bool.or_self, Bool.false_eq_true, if_false]
  obtain ⟨db2, h2⟩ := docLoop_no_fail (mkClaimId now.year rand) (instant now) qf hqf files
    { db with claims := db.claims ++ [newClaimRow b now (mkClaimId now.year rand)] } fs 1
  rw [h2]
  exact ⟨db2, rfl⟩

/-- Inversion of a 201 answer: validation passed, the claim insert did
not fail and did not collide, the file store is untouched, and the
document loop finished from the state holding the new claim row. -/
theorem postClaims_created_inv (b : Body) (files : List FileDesc) (now : JSTime) (rand : Nat)
    (qf : Nat → Bool) (db : DB) (fs : FileStore) (cid : String)
    (docs : List (String × String)) (dbO : DB) (fsO : FileStore)
    (h : postClaims b files now rand qf db fs = ⟨.created cid docs, dbO, fsO⟩) :
    validateClaim b files now = none ∧ cid = mkClaimId now.year rand ∧
    db.claims.any (fun c => c.claim_id == cid) = false ∧ fsO = fs ∧
    docs = files.map (fun f => (f.originalname, f.path)) ∧
    docLoop cid (instant now) qf files
      ⟨db.claims ++ [newClaimRow b now cid], db.documents, db.nextDocId⟩ fs 1 = .ok dbO := by
  unfold postClaims at h
  cases hv : validateClaim b files now with
  | some e => rw [hv] at h; simp at h
  | none =>
    rw [hv] at h
    by_cases hc : (qf 0 || db.claims.any (fun c => c.claim_id == mkClaimId now.year rand)) = true
    · rw [if_pos hc] at h; simp at h
    · rw [if_neg hc] at h
      rw [Bool.or_eq_true, not_or, Bool.not_eq_true, Bool.not_eq_true] at hc
      cases hl : docLoop (mkClaimId now.year rand) (instant now) qf files
          { db with claims := db.claims ++ [newClaimRow b now (mkClaimId now.year rand)] } fs 1 with
      | error dbT => rw [hl] at h; simp at h
      | ok db2 =>
        rw [hl] at h
        obtain ⟨hresp, hdb, hfs⟩ := PostOut.mk.injEq _ _ _ _ _ _ ▸ h
        obtain ⟨hcid, hdocs⟩ := PostResp.created.injEq _ _ _ _ ▸ hresp
        subst hcid hdb hfs
        exact ⟨rfl, rfl, hc.2, rfl, hdocs.symm, hl⟩

/-! ## C1: validation failures reject the request before any write -/

/-- C1: a claim-submission request that fails any validation check
(missing field, bad employee id, bad email, bad amount, bad date, or
zero attachments) is answered with that validation error, and the
database is exactly as before: no claim row and no document row is
persisted, and the file store is untouched. -/
theorem c1_validation_no_write (b : Body) (files : List FileDesc) (now : JSTime) (rand : Nat)
    (qf : Nat → Bool) (db : DB) (fs : FileStore) (e : String)
    (h : validateClaim b files now = some e) :
    postClaims b files now rand qf db fs = ⟨.badRequest e, db, fs⟩ :=
  postClaims_val_some b files now rand qf db fs e h

/-- A concrete run of C1: an invalid employee id is rejected and the
database value is unchanged. -/
theorem c1_validation_no_write_witness :
    validateClaim ⟨"Jo", "a@gmail.com", "ATS0", "Eng", "2025-10-12", "10", "d", "t"⟩
        [⟨"r.pdf", "p1"⟩] ⟨2025, 9, 12, 0⟩ = some msgEmpId ∧
    postClaims ⟨"Jo", "a@gmail.com", "ATS0", "Eng", "2025-10-12", "10", "d", "t"⟩
        [⟨"r.pdf", "p1"⟩] ⟨2025, 9, 12, 0⟩ 1234 (fun _ => false) ⟨[], [], 1⟩ [("p1", "B")]
      = ⟨.badRequest msgEmpId, ⟨[], [], 1⟩, [("p1", "B")]⟩ :=
  ⟨by decide,
   c1_validation_no_write _ _ _ 1234 (fun _ => false) ⟨[], [], 1⟩ [("p1", "B")] _ (by decide)⟩

/-! ## C5: persistence failure triggers file cleanup and a generic 500 -/

/-- C5: whenever claim creation ends in a persistence failure after the
attachment files were stored — the claim insert throwing, or a document
insert throwing after the claim insert succeeded — every attachment
file of the request is removed from the file store and the caller sees
only the generic failure message, never the internal error detail. -/
theorem c5_failure_cleanup (b : Body) (files : List FileDesc) (now : JSTime) (rand : Nat)
    (qf : Nat → Bool) (db : DB) (fs : FileStore) (m : String) (dbO : DB) (fsO : FileStore)
    (h : postClaims b files now rand qf db fs = ⟨.serverError m, dbO, fsO⟩) :
    m = msgServerError ∧ ∀ f ∈ files, fsHas fsO f.path = false := by
  unfold postClaims at h
  cases hv : validateClaim b files now with
  | some e => rw [hv] at h; simp at h
  | none =>
    rw [hv] at h
    by_cases hc : (qf 0 || db.claims.any (fun c => c.claim_id == mkClaimId now.year rand)) = true
    · rw [if_pos hc] at h
      obtain ⟨hresp, _, hfs⟩ := PostOut.mk.injEq _ _ _ _ _ _ ▸ h
      have hm := PostResp.serverError.injEq _ _ ▸ hresp
      subst hfs
      exact ⟨hm.symm, fun f hf => cleanupFiles_removes files fs f hf⟩
    · rw [if_neg hc] at h
      cases hl : docLoop (mkClaimId now.year rand) (instant now) qf files
          { db with claims := db.claims ++ [newClaimRow b now (mkClaimId now.year rand)] } fs 1 with
      | error dbT =>
        rw [hl] at h
        obtain ⟨hresp, _, hfs⟩ := PostOut.mk.injEq _ _ _ _ _ _ ▸ h
        have hm := PostResp.serverError.injEq _ _ ▸ hresp
        subst hfs
        exact ⟨hm.symm, fun f hf => cleanupFiles_removes files fs f hf⟩
      | ok db2 => rw [hl] at h; simp at h

/-- A concrete run of C5: the first document insert fails after the
claim insert succeeded; the stored file disappears from the file store
and the generic message is returned. -/
theorem c5_failure_cleanup_witness :
    postClaims ⟨"Jo", "a@gmail.com", "ATS0123", "Eng", "2025-10-12", "10", "d", "t"⟩
        [⟨"r.pdf", "p1"⟩] ⟨2025, 9, 12, 0⟩ 1234 (fun k => k == 1) ⟨[], [], 1⟩ [("p1", "B")]
      = ⟨.serverError msgServerError,
         ⟨[newClaimRow ⟨"Jo", "a@gmail.com", "ATS0123", "Eng", "2025-10-12", "10", "d", "t"⟩
             ⟨2025, 9, 12, 0⟩ "CLM-2025-1234"], [], 1⟩, []⟩ ∧
    msgServerError = msgServerError ∧
    ∀ f ∈ [(⟨"r.pdf", "p1"⟩ : FileDesc)], fsHas ([] : FileStore) f.path = false := by
  refine ⟨by decide, ?_⟩
  have h := c5_failure_cleanup ⟨"Jo", "a@gmail.com", "ATS0123", "Eng", "2025-10-12", "10", "d", "t"⟩
    [⟨"r.pdf", "p1"⟩] ⟨2025, 9, 12, 0⟩ 1234 (fun k => k == 1) ⟨[], [], 1⟩ [("p1", "B")]
    msgServerError
    ⟨[newClaimRow ⟨"Jo", "a@gmail.com", "ATS0123", "Eng", "2025-10-12", "10", "d", "t"⟩
        ⟨2025, 9, 12, 0⟩ "CLM-2025-1234"], [], 1⟩ [] (by decide)
  exact h

/-! ## C6: fetching one document by id -/

/-- C6: the document-fetch endpoint answers not-found when no document
row has the requested id; answers a (file-variant) not-found when the
row exists but its stored path is gone from the file store, rather than
crashing; and otherwise returns the raw file content. -/
theorem c6_fetch_document (docId : Nat) (db : DB) (fs : FileStore) :
    (db.documents.filter (fun d => d.id == docId) = [] →
      fetchDocument docId db fs = .notFound "Document not found")
    ∧ (∀ d rest, db.documents.filter (fun dd => dd.id == docId) = d :: rest →
        (fsHas fs d.file_path = false →
          fetchDocument docId db fs = .notFound "File not found on server")
        ∧ (∀ content, fsLookup fs d.file_path = some content →
          fetchDocument docId db fs = .ok content)) := by
  refine ⟨fun h => ?_, fun d rest h => ⟨fun hf => ?_, fun content hc => ?_⟩⟩
  · unfold fetchDocument
    rw [h]
  · unfold fetchDocument
    rw [h]
    have hnone : fsLookup fs d.file_path = none := by
      cases hx : fsLookup fs d.file_path with
      | none => rfl
      | some v => unfold fsHas at hf; rw [hx] at hf; simp at hf
    simp only [hnone]
  · unfold fetchDocument
    rw [h]
    simp only [hc]

/-- A concrete run of C6, all three outcomes on a one-document store. -/
theorem c6_fetch_document_witness :
    fetchDocument 2 ⟨[], [⟨1, "c1", "r.pdf", "p1", 0⟩], 2⟩ [("p1", "B")]
        = .notFound "Document not found" ∧
    fetchDocument 1 ⟨[], [⟨1, "c1", "r.pdf", "p1", 0⟩], 2⟩ []
        = .notFound "File not found on server" ∧
    fetchDocument 1 ⟨[], [⟨1, "c1", "r.pdf", "p1", 0⟩], 2⟩ [("p1", "B")] = .ok "B" := by
  refine ⟨(c6_fetch_document 2 ⟨[], [⟨1, "c1", "r.pdf", "p1", 0⟩], 2⟩ [("p1", "B")]).1 (by decide),
    ((c6_fetch_document 1 ⟨[], [⟨1, "c1", "r.pdf", "p1", 0⟩], 2⟩ []).2
      ⟨1, "c1", "r.pdf", "p1", 0⟩ [] (by decide)).1 (by decide),
    ((c6_fetch_document 1 ⟨[], [⟨1, "c1", "r.pdf", "p1", 0⟩], 2⟩ [("p1", "B")]).2
      ⟨1, "c1", "r.pdf", "p1", 0⟩ [] (by decide)).2 "B" (by decide)⟩

/-! ## C9: the employee-id pattern guards both endpoints -/

/-- C9: for every employee-id string that does not match
`ATS0[1-9]\d{2}`, claim submission carrying it is answered with a
validation error, and claim listing filtered by it (a filter is applied
exactly when the query value is non-empty) is answered with a
validation error. -/
theorem c9_empid_pattern (s : String) (h : empIdOk s = false) :
    (∀ b files now rand qf db fs, b.empId = s →
      ∃ m, (postClaims b files now rand qf db fs).resp = .badRequest m)
    ∧ (∀ cid st db, s ≠ "" → ∃ m, listClaims s cid st db = .error m) := by
  constructor
  · intro b files now rand qf db fs hb
    by_cases hr : requiredMissing b = true
    · have hv : validateClaim b files now = some msgRequired := by
        unfold validateClaim
        rw [hr, if_pos rfl]
      rw [postClaims_val_some b files now rand qf db fs _ hv]
      exact ⟨msgRequired, rfl⟩
    · rw [Bool.not_eq_true] at hr
      have hv : validateClaim b files now = some msgEmpId := by
        unfold validateClaim
        rw [hr, hb, h]
        simp
      rw [postClaims_val_some b files now rand qf db fs _ hv]
      exact ⟨msgEmpId, rfl⟩
  · intro cid st db hs
    unfold listClaims
    have hne : (s != "") = true := by simpa using hs
    rw [hne, h]
    simp

/-- A concrete run of C9 at the non-matching employee id `ATS0012`
(first digit after the prefix must be 1-9). -/
theorem c9_empid_pattern_witness :
    empIdOk "ATS0012" = false ∧
    (∃ m, (postClaims ⟨"Jo", "a@gmail.com", "ATS0012", "Eng", "2025-10-12", "10", "d", "t"⟩
      [⟨"r.pdf", "p1"⟩] ⟨2025, 9, 12, 0⟩ 1234 (fun _ => false) ⟨[], [], 1⟩ []).resp
        = .badRequest m) ∧
    (∃ m, listClaims "ATS0012" "" "" ⟨[], [], 1⟩ = .error m) := by
  refine ⟨by decide, ?_, ?_⟩
  · exact (c9_empid_pattern "ATS0012" (by decide)).1
      ⟨"Jo", "a@gmail.com", "ATS0012", "Eng", "2025-10-12", "10", "d", "t"⟩
      [⟨"r.pdf", "p1"⟩] ⟨2025, 9, 12, 0⟩ 1234 (fun _ => false) ⟨[], [], 1⟩ [] rfl
  · exact (c9_empid_pattern "ATS0012" (by decide)).2 "" "" ⟨[], [], 1⟩ (by decide)

/-! ## C10: the 5-file upload cap rejects the whole request -/

/-- C10: a submission carrying more than 5 attachment files is rejected
by the upload middleware before the handler runs: the whole request
fails with a 400 and the database — hence in particular the claims
table — is exactly as before. -/
theorem c10_upload_cap (b : Body) (files : List FileDesc) (now : JSTime) (rand : Nat)
    (qf : Nat → Bool) (db : DB) (fs : FileStore) (h : files.length > 5) :
    postRequest b files now rand qf db fs = ⟨.badRequest "Unexpected field", db, fs⟩ := by
  unfold postRequest
  rw [if_pos h]

/-- A concrete run of C10 with six otherwise-valid files. -/
theorem c10_upload_cap_witness :
    postRequest ⟨"Jo", "a@gmail.com", "ATS0123", "Eng", "2025-10-12", "10", "d", "t"⟩
        [⟨"a", "p1"⟩, ⟨"b", "p2"⟩, ⟨"c", "p3"⟩, ⟨"d", "p4"⟩, ⟨"e", "p5"⟩, ⟨"f", "p6"⟩]
        ⟨2025, 9, 12, 0⟩ 1234 (fun _ => false) ⟨[], [], 1⟩ []
      = ⟨.badRequest "Unexpected field", ⟨[], [], 1⟩, []⟩ :=
  c10_upload_cap _ _ _ 1234 (fun _ => false) ⟨[], [], 1⟩ [] (by decide)

/-! ## Lemmas about the PATCH handler's row update -/

theorem update_map_no_match (l : List ClaimRow) (cid st : String) (nowI : Int)
    (h : ∀ c ∈ l, c.claim_id ≠ cid) :
    l.map (fun x => if x.claim_id == cid then applyUpd st nowI x else x) = l := by
  induction l with
  | nil => rfl
  | cons x rest ih =>
    have hx : (x.claim_id == cid) = false := by simpa using h x (List.mem_cons_self x rest)
    simp only [List.map_cons, hx, Bool.false_eq_true, if_false]
    rw [ih (fun c hc => h c (List.mem_cons_of_mem x hc))]

theorem filter_no_match (l : List ClaimRow) (cid : String) (h : ∀ c ∈ l, c.claim_id ≠ cid) :
    l.filter (fun x => x.claim_id == cid) = [] := by
  induction l with
  | nil => rfl
  | cons x rest ih =>
    have hx : (x.claim_id == cid) = false := by simpa using h x (List.mem_cons_self x rest)
    simp only [List.filter_cons, hx, Bool.false_eq_true, if_false]
    exact ih (fun c hc => h c (List.mem_cons_of_mem x hc))

/-- Filtering by claim id commutes with the row update, since the
update never changes a row's `claim_id`. -/
theorem filter_update_map (l : List ClaimRow) (cid st : String) (nowI : Int) :
    (l.map (fun x => if x.claim_id == cid then applyUpd st nowI x else x)).filter
        (fun x => x.claim_id == cid)
      = (l.filter (fun x => x.claim_id == cid)).map (applyUpd st nowI) := by
  induction l with
  | nil => rfl
  | cons x rest ih =>
    by_cases hx : (x.claim_id == cid) = true
    · have hax : ((applyUpd st nowI x).claim_id == cid) = true := hx
      simp only [List.map_cons, List.filter_cons, hx, hax, if_true]
      rw [ih]
    · rw [Bool.not_eq_true] at hx
      simp only [List.map_cons, List.filter_cons, hx, Bool.false_eq_true, if_false]
      exact ih

/-- In a mapped claims list, every row carrying the updated claim id
carries the new status and timestamp. -/
theorem mem_update_map (l : List ClaimRow) (cid st : String) (nowI : Int) (x : ClaimRow)
    (hx : x ∈ l.map (fun y => if y.claim_id == cid then applyUpd st nowI y else y))
    (hcid : x.claim_id = cid) : x.status = st ∧ x.updated_at = nowI := by
  obtain ⟨a, ha, hax⟩ := List.mem_map.mp hx
  by_cases h : (a.claim_id == cid) = true
  · rw [if_pos h] at hax
    rw [← hax]
    exact ⟨rfl, rfl⟩
  · rw [if_neg h] at hax
    subst hax
    rw [hcid] at h
    simp at h

/-- The database state after a PATCH with a valid status is the row map,
whether or not any row matched. -/
theorem updateStatus_db (claimId st : String) (nowI : Int) (db : DB)
    (hst : (st == "approved" || st == "rejected") = true) :
    (updateStatus claimId st nowI db).db.claims
      = db.claims.map (fun c => if c.claim_id == claimId then applyUpd st nowI c else c) := by
  unfold updateStatus
  simp only [hst, Bool.not_true, Bool.false_eq_true, if_false]
  cases hm : (db.claims.filter (fun c => c.claim_id == claimId)).map (applyUpd st nowI) <;> rfl

/-- The response of a PATCH with a valid status when exactly one row
matches: the updated row is echoed. -/
theorem updateStatus_resp_single (claimId st : String) (nowI : Int) (db : DB) (c : ClaimRow)
    (hst : (st == "approved" || st == "rejected") = true)
    (hfil : db.claims.filter (fun x => x.claim_id == claimId) = [c]) :
    (updateStatus claimId st nowI db).resp = .updated (applyUpd st nowI c) := by
  unfold updateStatus
  simp only [hst, Bool.not_true, Bool.false_eq_true, if_false, hfil, List.map_cons]

/-- A PATCH with a valid status but no matching row answers 404 and
leaves the database unchanged. -/
theorem updateStatus_notfound (claimId st : String) (nowI : Int) (db : DB)
    (hst : (st == "approved" || st == "rejected") = true)
    (hnone : ∀ c ∈ db.claims, c.claim_id ≠ claimId) :
    updateStatus claimId st nowI db = ⟨.notFound "Claim not found", db⟩ := by
  unfold updateStatus
  simp only [hst, Bool.not_true, Bool.false_eq_true, if_false]
  rw [filter_no_match db.claims claimId hnone]
  simp only [List.map_nil]
  rw [update_map_no_match db.claims claimId st nowI hnone]

/-! ## C3: the status-update endpoint -/

/-- C3: for every status-update call, a new status outside approved and
rejected is answered with a validation error and the database is
unchanged; a valid status on a nonexistent claim id is answered 404
with the database unchanged; a valid status on the (unique) existing
claim sets its status, refreshes `updated_at` to the current time, and
echoes the updated row; and two successive calls with different
terminal statuses on the same existing claim both succeed, the second
status is the one persisted on every row carrying that claim id, and
`updated_at` advances monotonically with the clock. -/
theorem c3_update_status (claimId st : String) (nowI : Int) (db : DB) :
    (st ≠ "approved" → st ≠ "rejected" →
      updateStatus claimId st nowI db
        = ⟨.badRequest "Status must be approved or rejected", db⟩)
    ∧ ((st = "approved" ∨ st = "rejected") → (∀ c ∈ db.claims, c.claim_id ≠ claimId) →
      updateStatus claimId st nowI db = ⟨.notFound "Claim not found", db⟩)
    ∧ (∀ c, (st = "approved" ∨ st = "rejected") →
      db.claims.filter (fun x => x.claim_id == claimId) = [c] →
      (updateStatus claimId st nowI db).resp = .updated (applyUpd st nowI c) ∧
      (applyUpd st nowI c).status = st ∧ (applyUpd st nowI c).updated_at = nowI)
    ∧ (∀ c s1 s2 t1 t2, (s1 = "approved" ∨ s1 = "rejected") →
      (s2 = "approved" ∨ s2 = "rejected") → s1 ≠ s2 → t1 ≤ t2 →
      db.claims.filter (fun x => x.claim_id == claimId) = [c] →
      ∃ r1 r2, (updateStatus claimId s1 t1 db).resp = .updated r1 ∧
        (updateStatus claimId s2 t2 (updateStatus claimId s1 t1 db).db).resp = .updated r2 ∧
        r1.status = s1 ∧ r2.status = s2 ∧ r1.updated_at = t1 ∧ r2.updated_at = t2 ∧
        r1.updated_at ≤ r2.updated_at ∧
        (∀ x ∈ (updateStatus claimId s2 t2 (updateStatus claimId s1 t1 db).db).db.claims,
          x.claim_id = claimId → x.status = s2 ∧ x.updated_at = t2)) := by
  have hbeq : ∀ s : String, (s = "approved" ∨ s = "rejected") →
      (s == "approved" || s == "rejected") = true := by
    rintro s (rfl | rfl) <;> rfl
  refine ⟨fun h1 h2 => ?_, fun hs hn => ?_, fun c hs hfil => ?_,
    fun c s1 s2 t1 t2 hs1 hs2 _ ht hfil => ?_⟩
  · unfold updateStatus
    have hc : (st == "approved" || st == "rejected") = false := by
      simp [h1, h2]
    simp only [hc, Bool.not_false, if_true]
  · rw [updateStatus_notfound claimId st nowI db (hbeq st hs) hn]
  · exact ⟨updateStatus_resp_single claimId st nowI db c (hbeq st hs) hfil, rfl, rfl⟩
  · have h1 := updateStatus_resp_single claimId s1 t1 db c (hbeq s1 hs1) hfil
    have hdb1 := updateStatus_db claimId s1 t1 db (hbeq s1 hs1)
    have hfil1 : (updateStatus claimId s1 t1 db).db.claims.filter
        (fun x => x.claim_id == claimId) = [applyUpd s1 t1 c] := by
      rw [hdb1, filter_update_map, hfil]
      rfl
    have h2 := updateStatus_resp_single claimId s2 t2 (updateStatus claimId s1 t1 db).db
      (applyUpd s1 t1 c) (hbeq s2 hs2) hfil1
    refine ⟨applyUpd s1 t1 c, applyUpd s2 t2 (applyUpd s1 t1 c),
      h1, h2, rfl, rfl, rfl, rfl, ht, ?_⟩
    intro x hx hxid
    have hdb2 := updateStatus_db claimId s2 t2 (updateStatus claimId s1 t1 db).db (hbeq s2 hs2)
    rw [hdb2] at hx
    exact mem_update_map _ claimId s2 t2 x hx hxid

/-- A concrete run of C3: approve then reject the same claim; the
second status wins and the timestamp advances. -/
theorem c3_update_status_witness :
    (updateStatus "c1" "weird" 5 ⟨[], [], 1⟩
      = ⟨.badRequest "Status must be approved or rejected", ⟨[], [], 1⟩⟩) ∧
    (updateStatus "c9" "approved" 5
        ⟨[⟨"c1", "n", "e", "i", "d", "cd", ⟨10, 1⟩, "de", "t", "pending", 0, 0⟩], [], 1⟩
      = ⟨.notFound "Claim not found",
         ⟨[⟨"c1", "n", "e", "i", "d", "cd", ⟨10, 1⟩, "de", "t", "pending", 0, 0⟩], [], 1⟩⟩) ∧
    (∃ r1 r2, (updateStatus "c1" "approved" 5
        ⟨[⟨"c1", "n", "e", "i", "d", "cd", ⟨10, 1⟩, "de", "t", "pending", 0, 0⟩], [], 1⟩).resp
        = .updated r1 ∧
      (updateStatus "c1" "rejected" 7 (updateStatus "c1" "approved" 5
        ⟨[⟨"c1", "n", "e", "i", "d", "cd", ⟨10, 1⟩, "de", "t", "pending", 0, 0⟩], [], 1⟩).db).resp
        = .updated r2 ∧
      r1.status = "approved" ∧ r2.status = "rejected" ∧ r1.updated_at = 5 ∧ r2.updated_at = 7 ∧
      r1.updated_at ≤ r2.updated_at ∧
      (∀ x ∈ (updateStatus "c1" "rejected" 7 (updateStatus "c1" "approved" 5
          ⟨[⟨"c1", "n", "e", "i", "d", "cd", ⟨10, 1⟩, "de", "t", "pending", 0, 0⟩],
           [], 1⟩).db).db.claims,
        x.claim_id = "c1" → x.status = "rejected" ∧ x.updated_at = 7)) := by
  refine ⟨(c3_update_status "c1" "weird" 5 ⟨[], [], 1⟩).1 (by decide) (by decide),
    (c3_update_status "c9" "approved" 5
      ⟨[⟨"c1", "n", "e", "i", "d", "cd", ⟨10, 1⟩, "de", "t", "pending", 0, 0⟩], [], 1⟩).2.1
      (Or.inl rfl) (by decide), ?_⟩
  obtain ⟨r1, r2, hh⟩ := (c3_update_status "c1" "approved" 5
      ⟨[⟨"c1", "n", "e", "i", "d", "cd", ⟨10, 1⟩, "de", "t", "pending", 0, 0⟩], [], 1⟩).2.2.2
      ⟨"c1", "n", "e", "i", "d", "cd", ⟨10, 1⟩, "de", "t", "pending", 0, 0⟩
      "approved" "rejected" 5 7 (Or.inl rfl) (Or.inr rfl) (by decide) (by decide) (by decide)
  exact ⟨r1, r2, hh.1, hh.2.1, hh.2.2.1, hh.2.2.2.1, hh.2.2.2.2.1, hh.2.2.2.2.2.1,
    hh.2.2.2.2.2.2.1, hh.2.2.2.2.2.2.2⟩

/-! ## C4: the list endpoint -/

/-- C4: for every list call whose optional employee-id filter is absent
or well-formed, the endpoint answers the full result set (no
pagination): a claim is in the answer exactly when it is in the table
and satisfies the conjunction of the present filters; the answer is
ordered by `created_at` descending; and every returned claim carries
exactly its associated documents (id, file name, file path). -/
theorem c4_list_claims (eid cid st : String) (db : DB)
    (h : eid = "" ∨ empIdOk eid = true) :
    ∃ l, listClaims eid cid st db = .ok l ∧
      (∀ e, e ∈ l ↔ ∃ c, c ∈ db.claims ∧ claimMatches eid cid st c = true ∧
        e = ⟨c, docsFor db c.claim_id⟩) ∧
      l.Pairwise (fun a b => b.claim.created_at ≤ a.claim.created_at) ∧
      (∀ e ∈ l, e.documents = docsFor db e.claim.claim_id) := by
  have hcond : (eid != "" && !empIdOk eid) = false := by
    rcases h with h | h
    · subst h; rfl
    · rw [h]; simp
  refine ⟨((db.claims.filter (claimMatches eid cid st)).insertionSort createdDesc).map
      (fun c => ⟨c, docsFor db c.claim_id⟩), ?_, ?_, ?_, ?_⟩
  · unfold listClaims
    rw [hcond]
    simp
  · intro e
    constructor
    · intro he
      obtain ⟨c, hc, rfl⟩ := List.mem_map.mp he
      have hc' : c ∈ db.claims.filter (claimMatches eid cid st) :=
        (List.perm_insertionSort createdDesc _).mem_iff.mp hc
      obtain ⟨hcm, hp⟩ := List.mem_filter.mp hc'
      exact ⟨c, hcm, hp, rfl⟩
    · rintro ⟨c, hcm, hp, rfl⟩
      refine List.mem_map.mpr ⟨c, ?_, rfl⟩
      exact (List.perm_insertionSort createdDesc _).mem_iff.mpr (List.mem_filter.mpr ⟨hcm, hp⟩)
  · have hs := List.sorted_insertionSort createdDesc (db.claims.filter (claimMatches eid cid st))
    exact List.Pairwise.map _ (fun a b hab => hab) hs
  · intro e he
    obtain ⟨c, _, rfl⟩ := List.mem_map.mp he
    rfl

/-- A concrete run of C4: with two stored claims the endpoint returns
both, newest first, each with its documents, and the theorem's
characterisation holds at this database. -/
theorem c4_list_claims_witness :
    listClaims "" "" ""
        ⟨[⟨"c1", "n", "e", "ATS0123", "d", "cd", ⟨10, 1⟩, "de", "t", "pending", 1, 1⟩,
          ⟨"c2", "n", "e", "ATS0124", "d", "cd", ⟨10, 1⟩, "de", "t", "pending", 5, 5⟩],
         [⟨1, "c1", "r.pdf", "p1", 0⟩], 2⟩
      = .ok [⟨⟨"c2", "n", "e", "ATS0124", "d", "cd", ⟨10, 1⟩, "de", "t", "pending", 5, 5⟩, []⟩,
             ⟨⟨"c1", "n", "e", "ATS0123", "d", "cd", ⟨10, 1⟩, "de", "t", "pending", 1, 1⟩,
              [⟨1, "r.pdf", "p1"⟩]⟩] ∧
    ∃ l, listClaims "" "" ""
        ⟨[⟨"c1", "n", "e", "ATS0123", "d", "cd", ⟨10, 1⟩, "de", "t", "pending", 1, 1⟩,
          ⟨"c2", "n", "e", "ATS0124", "d", "cd", ⟨10, 1⟩, "de", "t", "pending", 5, 5⟩],
         [⟨1, "c1", "r.pdf", "p1", 0⟩], 2⟩ = .ok l ∧
      (∀ e, e ∈ l ↔ ∃ c, c ∈ [⟨"c1", "n", "e", "ATS0123", "d", "cd", ⟨10, 1⟩, "de", "t",
          "pending", 1, 1⟩, (⟨"c2", "n", "e", "ATS0124", "d", "cd", ⟨10, 1⟩, "de", "t",
          "pending", 5, 5⟩ : ClaimRow)] ∧ claimMatches "" "" "" c = true ∧
        e = ⟨c, docsFor ⟨[⟨"c1", "n", "e", "ATS0123", "d", "cd", ⟨10, 1⟩, "de", "t", "pending",
          1, 1⟩, ⟨"c2", "n", "e", "ATS0124", "d", "cd", ⟨10, 1⟩, "de", "t", "pending", 5, 5⟩],
          [⟨1, "c1", "r.pdf", "p1", 0⟩], 2⟩ c.claim_id⟩) ∧
      l.Pairwise (fun a b => b.claim.created_at ≤ a.claim.created_at) ∧
      (∀ e ∈ l, e.documents = docsFor ⟨[⟨"c1", "n", "e", "ATS0123", "d", "cd", ⟨10, 1⟩, "de",
        "t", "pending", 1, 1⟩, ⟨"c2", "n", "e", "ATS0124", "d", "cd", ⟨10, 1⟩, "de", "t",
        "pending", 5, 5⟩], [⟨1, "c1", "r.pdf", "p1", 0⟩], 2⟩ e.claim.claim_id) :=
  ⟨rfl, c4_list_claims "" "" ""
    ⟨[⟨"c1", "n", "e", "ATS0123", "d", "cd", ⟨10, 1⟩, "de", "t", "pending", 1, 1⟩,
      ⟨"c2", "n", "e", "ATS0124", "d", "cd", ⟨10, 1⟩, "de", "t", "pending", 5, 5⟩],
     [⟨1, "c1", "r.pdf", "p1", 0⟩], 2⟩ (Or.inl rfl)⟩

/-! ## C7: the claim-date window -/

/-- When the first four checks pass, the validation outcome is decided
by the date check and then the attachment check. -/
theorem validateClaim_date_tail (b : Body) (files : List FileDesc) (now : JSTime)
    (h1 : requiredMissing b = false) (h2 : empIdOk b.empId = true)
    (h3 : emailOk b.empEmail = true) (h4 : amountBad (parseFloat b.amount) = false) :
    validateClaim b files now =
      (if dateBad (parseClaimDate b.claimDate) now then some msgDate
       else if files.isEmpty then some msgNoDocs else none) := by
  unfold validateClaim
  rw [h1, h2, h3, h4]
  simp

/-- C7: with the earlier checks passing and a well-formed clock, a
parsed claim date strictly after the submission instant, or strictly
before the instant three months earlier, is rejected with the date
error and nothing is written; a claim date whose civil date equals the
current date passes validation; and a claim date falling exactly one
day after the three-months-ago mark passes validation. -/
theorem c7_date_window (b : Body) (files : List FileDesc) (now : JSTime) (rand : Nat)
    (qf : Nat → Bool) (db : DB) (fs : FileStore) (d : JSTime)
    (hwf : now.wf) (hp : parseClaimDate b.claimDate = some d)
    (h1 : requiredMissing b = false) (h2 : empIdOk b.empId = true)
    (h3 : emailOk b.empEmail = true) (h4 : amountBad (parseFloat b.amount) = false) :
    ((instant now < instant d ∨ instant d < threeMonthsAgo now) →
      postClaims b files now rand qf db fs = ⟨.badRequest msgDate, db, fs⟩)
    ∧ (d.year = now.year → d.month0 = now.month0 → d.day = now.day → d.msOfDay = 0 →
      files.isEmpty = false → validateClaim b files now = none)
    ∧ (civilDays d.year d.month0 d.day
          = civilDays (now.year + (now.month0 - 3) / 12) ((now.month0 - 3) % 12) now.day + 1 →
      d.msOfDay = 0 → files.isEmpty = false → validateClaim b files now = none) := by
  obtain ⟨hm0, hm1, _, htod0, htod1⟩ := hwf
  have hback := back3_add_one_le now hm0 hm1
  refine ⟨fun hcond => ?_, fun hy hm hd h0 hne => ?_, fun hciv h0 hne => ?_⟩
  · have hdb : dateBad (parseClaimDate b.claimDate) now = true := by
      rw [hp]
      show (decide (instant now < instant d) || decide (instant d < threeMonthsAgo now)) = true
      rcases hcond with hc | hc
      · rw [decide_eq_true hc]
        simp
      · rw [decide_eq_true hc]
        simp
    have hv : validateClaim b files now = some msgDate := by
      rw [validateClaim_date_tail b files now h1 h2 h3 h4, hdb, if_pos rfl]
    exact postClaims_val_some b files now rand qf db fs msgDate hv
  · have hdb : dateBad (parseClaimDate b.claimDate) now = false := by
      rw [hp]
      show (decide (instant now < instant d) || decide (instant d < threeMonthsAgo now)) = false
      unfold instant threeMonthsAgo
      rw [hy, hm, hd, h0]
      simp only [Bool.or_eq_false_iff, decide_eq_false_iff_not, not_lt, msPerDay] at *
      constructor
      · omega
      · omega
    rw [validateClaim_date_tail b files now h1 h2 h3 h4, hdb]
    simp [hne]
  · have hdb : dateBad (parseClaimDate b.claimDate) now = false := by
      rw [hp]
      show (decide (instant now < instant d) || decide (instant d < threeMonthsAgo now)) = false
      unfold instant threeMonthsAgo
      rw [hciv, h0]
      simp only [Bool.or_eq_false_iff, decide_eq_false_iff_not, not_lt, msPerDay] at *
      constructor
      · omega
      · omega
    rw [validateClaim_date_tail b files now h1 h2 h3 h4, hdb]
    simp [hne]

/-- A concrete run of C7 at the clock 2025-10-12 01:00: the future date
2025-10-13 is rejected with the date error and no write happens; the
current date 2025-10-12 passes validation; and 2025-07-13, one day
after the three-months-ago mark 2025-07-12, passes validation. -/
theorem c7_date_window_witness :
    postClaims ⟨"Jo", "a@gmail.com", "ATS0123", "Eng", "2025-10-13", "10", "d", "t"⟩
        [⟨"r.pdf", "p1"⟩] ⟨2025, 9, 12, 3600000⟩ 1234 (fun _ => false) ⟨[], [], 1⟩ []
      = ⟨.badRequest msgDate, ⟨[], [], 1⟩, []⟩ ∧
    validateClaim ⟨"Jo", "a@gmail.com", "ATS0123", "Eng", "2025-10-12", "10", "d", "t"⟩
        [⟨"r.pdf", "p1"⟩] ⟨2025, 9, 12, 3600000⟩ = none ∧
    validateClaim ⟨"Jo", "a@gmail.com", "ATS0123", "Eng", "2025-07-13", "10", "d", "t"⟩
        [⟨"r.pdf", "p1"⟩] ⟨2025, 9, 12, 3600000⟩ = none := by
  refine ⟨?_, ?_, ?_⟩
  · exact (c7_date_window ⟨"Jo", "a@gmail.com", "ATS0123", "Eng", "2025-10-13", "10", "d", "t"⟩
      [⟨"r.pdf", "p1"⟩] ⟨2025, 9, 12, 3600000⟩ 1234 (fun _ => false) ⟨[], [], 1⟩ []
      ⟨2025, 9, 13, 0⟩ (by constructor <;> [decide; constructor <;> [decide; exact ⟨by decide, by decide, by decide⟩]])
      (by decide) (by decide) (by decide) (by decide) (by decide)).1 (by decide)
  · exact (c7_date_window ⟨"Jo", "a@gmail.com", "ATS0123", "Eng", "2025-10-12", "10", "d", "t"⟩
      [⟨"r.pdf", "p1"⟩] ⟨2025, 9, 12, 3600000⟩ 1234 (fun _ => false) ⟨[], [], 1⟩ []
      ⟨2025, 9, 12, 0⟩ (by constructor <;> [decide; constructor <;> [decide; exact ⟨by decide, by decide, by decide⟩]])
      (by decide) (by decide) (by decide) (by decide) (by decide)).2.1
      rfl rfl rfl rfl (by decide)
  · exact (c7_date_window ⟨"Jo", "a@gmail.com", "ATS0123", "Eng", "2025-07-13", "10", "d", "t"⟩
      [⟨"r.pdf", "p1"⟩] ⟨2025, 9, 12, 3600000⟩ 1234 (fun _ => false) ⟨[], [], 1⟩ []
      ⟨2025, 6, 13, 0⟩ (by constructor <;> [decide; constructor <;> [decide; exact ⟨by decide, by decide, by decide⟩]])
      (by decide) (by decide) (by decide) (by decide) (by decide)).2.2
      (by decide) rfl (by decide)

/-! ## C8: the amount window -/

/-- A parsed amount always has a positive (power-of-ten) denominator. -/
theorem parseFloat_den_pos (s : String) (v : JSNum) (h : parseFloat s = some v) :
    0 < v.den := by
  simp only [parseFloat] at h
  split at h
  · cases h
  · rw [Option.some.injEq] at h
    subst h
    positivity

/-- The cross-multiplied amount check agrees with the comparisons on
the rational value of the parsed amount. -/
theorem amountBad_iff_val (v : JSNum) (hden : 0 < v.den) :
    amountBad (some v) = true ↔ (v.val ≤ 0 ∨ 50000 < v.val) := by
  show (decide (v.num ≤ 0) || decide (50000 * v.den < v.num)) = true ↔ _
  have hdenQ : (0 : Rat) < (v.den : Rat) := by exact_mod_cast hden
  rw [Bool.or_eq_true, decide_eq_true_iff, decide_eq_true_iff]
  unfold JSNum.val
  rw [div_le_iff₀ hdenQ, lt_div_iff₀ hdenQ, zero_mul]
  constructor
  · rintro (h | h)
    · left; exact_mod_cast h
    · right
      have : ((50000 * v.den : Int) : Rat) < ((v.num : Int) : Rat) := by exact_mod_cast h
      push_cast at this
      linarith
  · rintro (h | h)
    · left; exact_mod_cast h
    · right
      have : ((50000 : Rat) * (v.den : Rat)) < (v.num : Rat) := h
      exact_mod_cast this

/-- When validation passes, the handler never answers 400. -/
theorem postClaims_resp_of_valid (b : Body) (files : List FileDesc) (now : JSTime) (rand : Nat)
    (qf : Nat → Bool) (db : DB) (fs : FileStore)
    (hv : validateClaim b files now = none) (m : String) :
    (postClaims b files now rand qf db fs).resp ≠ .badRequest m := by
  unfold postClaims
  rw [hv]
  by_cases hc : (qf 0 || db.claims.any (fun c => c.claim_id == mkClaimId now.year rand)) = true
  · rw [if_pos hc]
    intro h
    cases h
  · rw [if_neg hc]
    cases hl : docLoop (mkClaimId now.year rand) (instant now) qf files
        { db with claims := db.claims ++ [newClaimRow b now (mkClaimId now.year rand)] } fs 1 with
    | error dbT => intro h; cases h
    | ok db2 => intro h; cases h

/-- C8: when the earlier checks pass, a submission is rejected with the
amount error exactly when the amount string does not parse to a number,
or its parsed value is non-positive or exceeds 50000. -/
theorem c8_amount_window (b : Body) (files : List FileDesc) (now : JSTime) (rand : Nat)
    (qf : Nat → Bool) (db : DB) (fs : FileStore)
    (h1 : requiredMissing b = false) (h2 : empIdOk b.empId = true)
    (h3 : emailOk b.empEmail = true) :
    (postClaims b files now rand qf db fs).resp = .badRequest msgAmount
      ↔ (parseFloat b.amount = none ∨
         ∃ v, parseFloat b.amount = some v ∧ (v.val ≤ 0 ∨ 50000 < v.val)) := by
  have key : amountBad (parseFloat b.amount) = true
      ↔ (parseFloat b.amount = none ∨
         ∃ v, parseFloat b.amount = some v ∧ (v.val ≤ 0 ∨ 50000 < v.val)) := by
    cases hv : parseFloat b.amount with
    | none => simp [amountBad]
    | some v =>
      rw [amountBad_iff_val v (parseFloat_den_pos b.amount v hv)]
      simp
  constructor
  · intro hr
    rw [← key]
    by_contra hab
    rw [Bool.not_eq_true] at hab
    by_cases hdb : dateBad (parseClaimDate b.claimDate) now = true
    · have hv : validateClaim b files now = some msgDate := by
        rw [validateClaim_date_tail b files now h1 h2 h3 hab, hdb, if_pos rfl]
      rw [postClaims_val_some b files now rand qf db fs msgDate hv] at hr
      simp only [PostResp.badRequest.injEq] at hr
      exact absurd hr (by decide)
    · rw [Bool.not_eq_true] at hdb
      by_cases hfe : files.isEmpty = true
      · have hv : validateClaim b files now = some msgNoDocs := by
          rw [validateClaim_date_tail b files now h1 h2 h3 hab, hdb, hfe]
          simp
        rw [postClaims_val_some b files now rand qf db fs msgNoDocs hv] at hr
        simp only [PostResp.badRequest.injEq] at hr
        exact absurd hr (by decide)
      · rw [Bool.not_eq_true] at hfe
        have hv : validateClaim b files now = none := by
          rw [validateClaim_date_tail b files now h1 h2 h3 hab, hdb, hfe]
          simp
        exact absurd hr (postClaims_resp_of_valid b files now rand qf db fs hv msgAmount)
  · intro hrhs
    have hab : amountBad (parseFloat b.amount) = true := key.mpr hrhs
    have hv : validateClaim b files now = some msgAmount := by
      unfold validateClaim
      rw [h1, h2, h3, hab]
      simp
    rw [postClaims_val_some b files now rand qf db fs msgAmount hv]

/-- A concrete run of C8 at the three boundary amounts: 50000 is
accepted (the submission is answered 201), while 50000.01 and 0 are
rejected with the amount error. -/
theorem c8_amount_window_witness :
    (postClaims ⟨"Jo", "a@gmail.com", "ATS0123", "Eng", "2025-10-12", "50000", "d", "t"⟩
        [⟨"r.pdf", "p1"⟩] ⟨2025, 9, 12, 3600000⟩ 1234 (fun _ => false) ⟨[], [], 1⟩
        [("p1", "B")]).resp ≠ .badRequest msgAmount ∧
    (postClaims ⟨"Jo", "a@gmail.com", "ATS0123", "Eng", "2025-10-12", "50000.01", "d", "t"⟩
        [⟨"r.pdf", "p1"⟩] ⟨2025, 9, 12, 3600000⟩ 1234 (fun _ => false) ⟨[], [], 1⟩
        [("p1", "B")]).resp = .badRequest msgAmount ∧
    (postClaims ⟨"Jo", "a@gmail.com", "ATS0123", "Eng", "2025-10-12", "0", "d", "t"⟩
        [⟨"r.pdf", "p1"⟩] ⟨2025, 9, 12, 3600000⟩ 1234 (fun _ => false) ⟨[], [], 1⟩
        [("p1", "B")]).resp = .badRequest msgAmount := by
  refine ⟨?_, ?_, ?_⟩
  · intro hr
    have h := (c8_amount_window ⟨"Jo", "a@gmail.com", "ATS0123", "Eng", "2025-10-12", "50000",
        "d", "t"⟩ [⟨"r.pdf", "p1"⟩] ⟨2025, 9, 12, 3600000⟩ 1234 (fun _ => false) ⟨[], [], 1⟩
        [("p1", "B")] (by decide) (by decide) (by decide)).mp hr
    rcases h with h | ⟨v, hv, hcmp⟩
    · exact absurd h (by decide)
    · rw [show parseFloat "50000" = some (⟨50000, 1⟩ : JSNum) from by decide,
        Option.some.injEq] at hv
      subst hv
      norm_num [JSNum.val] at hcmp
  · exact (c8_amount_window ⟨"Jo", "a@gmail.com", "ATS0123", "Eng", "2025-10-12", "50000.01",
      "d", "t"⟩ [⟨"r.pdf", "p1"⟩] ⟨2025, 9, 12, 3600000⟩ 1234 (fun _ => false) ⟨[], [], 1⟩
      [("p1", "B")] (by decide) (by decide) (by decide)).mpr
      (Or.inr ⟨⟨5000001, 100⟩, by decide, Or.inr (by norm_num [JSNum.val])⟩)
  · exact (c8_amount_window ⟨"Jo", "a@gmail.com", "ATS0123", "Eng", "2025-10-12", "0",
      "d", "t"⟩ [⟨"r.pdf", "p1"⟩] ⟨2025, 9, 12, 3600000⟩ 1234 (fun _ => false) ⟨[], [], 1⟩
      [("p1", "B")] (by decide) (by decide) (by decide)).mpr
      (Or.inr ⟨⟨0, 1⟩, by decide, Or.inl (by norm_num [JSNum.val])⟩)

/-! ## Decimal digits of the generated claim id -/

theorem decDigitsAux_irrel (n : Nat) : ∀ f1 f2, n < f1 → n < f2 →
    decDigitsAux f1 n = decDigitsAux f2 n := by
  induction n using Nat.strong_induction_on with
  | _ n ih =>
    intro f1 f2 h1 h2
    cases f1 with
    | zero => exact absurd h1 (Nat.not_lt_zero n)
    | succ g1 =>
      cases f2 with
      | zero => exact absurd h2 (Nat.not_lt_zero n)
      | succ g2 =>
        simp only [decDigitsAux]
        by_cases h : n < 10
        · simp [h]
        · simp only [h, if_false]
          have hlt : n / 10 < n := Nat.div_lt_self (by omega) (by omega)
          rw [ih (n / 10) hlt g1 g2 (by omega) (by omega)]

theorem decDigits_small (n : Nat) (h : n < 10) : decDigits n = [digitChar n] := by
  unfold decDigits
  simp [decDigitsAux, h]

theorem decDigits_step (n : Nat) (h : 10 ≤ n) :
    decDigits n = decDigits (n / 10) ++ [digitChar (n % 10)] := by
  unfold decDigits
  have h1 : ¬n < 10 := by omega
  simp only [decDigitsAux, h1, if_false]
  rw [decDigitsAux_irrel (n / 10) n (n / 10 + 1)
    (Nat.div_lt_self (by omega) (by omega)) (Nat.lt_succ_self _)]
  simp only [decDigitsAux]

theorem digitChar_isDigit (k : Nat) (h : k < 10) : (digitChar k).isDigit = true := by
  interval_cases k <;> decide

theorem decDigits_four (n : Nat) (h1 : 1000 ≤ n) (h2 : n ≤ 9999) :
    decDigits n = [digitChar (n / 1000), digitChar (n / 100 % 10),
      digitChar (n / 10 % 10), digitChar (n % 10)] := by
  rw [decDigits_step n (by omega)]
  rw [decDigits_step (n / 10) (by omega)]
  rw [decDigits_step (n / 10 / 10) (by omega)]
  rw [decDigits_small (n / 10 / 10 / 10) (by omega)]
  rw [show n / 10 / 10 / 10 = n / 1000 from by omega,
      show n / 10 / 10 = n / 100 from by omega]
  simp

theorem mkClaimId_toList (year : Int) (rand : Nat) (hy : 0 ≤ year) :
    (mkClaimId year rand).toList
      = 'C' :: 'L' :: 'M' :: '-' :: (decDigits year.toNat ++ '-' :: decDigits rand) := by
  show (mkClaimId year rand).data = _
  unfold mkClaimId intStr natStr
  rw [if_neg (by omega)]
  rw [String.data_append, String.data_append, String.data_append]
  show ((['C', 'L', 'M', '-'] ++ decDigits year.toNat) ++ ['-']) ++ decDigits rand = _
  simp

theorem mkClaimId_ne_empty (year : Int) (rand : Nat) (hy : 0 ≤ year) :
    mkClaimId year rand ≠ "" := by
  intro h
  have h2 := congrArg String.toList h
  rw [mkClaimId_toList year rand hy] at h2
  rw [show ("" : String).toList = [] from rfl] at h2
  exact List.noConfusion h2

/-- The generated claim id has the documented shape whenever the year
and the random suffix are four-digit numbers. -/
theorem mkClaimId_ok (year : Int) (rand : Nat) (hy1 : 1000 ≤ year) (hy2 : year ≤ 9999)
    (hr1 : 1000 ≤ rand) (hr2 : rand ≤ 9999) : clmIdOk (mkClaimId year rand) = true := by
  unfold clmIdOk
  rw [mkClaimId_toList year rand (by omega)]
  have hyt1 : 1000 ≤ year.toNat := by omega
  have hyt2 : year.toNat ≤ 9999 := by omega
  rw [decDigits_four year.toNat hyt1 hyt2, decDigits_four rand hr1 hr2]
  simp only [List.cons_append, List.nil_append]
  show ((digitChar (year.toNat / 1000)).isDigit && (digitChar (year.toNat / 100 % 10)).isDigit &&
      (digitChar (year.toNat / 10 % 10)).isDigit && (digitChar (year.toNat % 10)).isDigit &&
      (digitChar (rand / 1000)).isDigit && (digitChar (rand / 100 % 10)).isDigit &&
      (digitChar (rand / 10 % 10)).isDigit && (digitChar (rand % 10)).isDigit) = true
  rw [digitChar_isDigit (year.toNat / 1000) (by omega),
      digitChar_isDigit (year.toNat / 100 % 10) (by omega),
      digitChar_isDigit (year.toNat / 10 % 10) (by omega),
      digitChar_isDigit (year.toNat % 10) (by omega),
      digitChar_isDigit (rand / 1000) (by omega),
      digitChar_isDigit (rand / 100 % 10) (by omega),
      digitChar_isDigit (rand / 10 % 10) (by omega),
      digitChar_isDigit (rand % 10) (by omega)]
  rfl

/-! ## C2: a successful submission and the subsequent list-by-id -/

theorem doc_filter_no_match (l : List DocumentRow) (cid : String)
    (h : ∀ d ∈ l, d.claim_id ≠ cid) : l.filter (fun d => d.claim_id == cid) = [] := by
  induction l with
  | nil => rfl
  | cons x rest ih =>
    have hx : (x.claim_id == cid) = false := by simpa using h x (List.mem_cons_self x rest)
    simp only [List.filter_cons, hx, Bool.false_eq_true, if_false]
    exact ih (fun d hd => h d (List.mem_cons_of_mem x hd))

theorem mkDocs_filter_self (cid : String) (nowI : Int) (files : List FileDesc) :
    ∀ i, (mkDocs cid nowI i files).filter (fun d => d.claim_id == cid)
      = mkDocs cid nowI i files := by
  induction files with
  | nil => intro i; rfl
  | cons f rest ih =>
    intro i
    simp only [mkDocs, List.filter_cons]
    rw [show ((⟨i, cid, f.originalname, f.path, nowI⟩ : DocumentRow).claim_id == cid) = true
      from by simp]
    simp only [if_true]
    rw [ih (i + 1)]

/-- C2: a submission answered 201 (with a four-digit clock year and the
random suffix in its documented range) returns a claim id of the shape
`CLM-<4-digit-year>-<4 digits>`; the claim row is appended with status
`pending` and `created_at = updated_at` equal to the submission
instant; and listing by that claim id right after returns exactly one
claim — that row — whose embedded documents agree with the submitted
attachment set in count and in original file names. -/
theorem c2_successful_submission (b : Body) (files : List FileDesc) (now : JSTime) (rand : Nat)
    (qf : Nat → Bool) (db : DB) (fs : FileStore) (cid : String)
    (docs : List (String × String)) (dbO : DB) (fsO : FileStore)
    (hfk : ∀ d ∈ db.documents, ∃ c ∈ db.claims, d.claim_id = c.claim_id)
    (hstored : ∀ f ∈ files, fsHas fs f.path = true)
    (hy1 : 1000 ≤ now.year) (hy2 : now.year ≤ 9999)
    (hr1 : 1000 ≤ rand) (hr2 : rand ≤ 9999)
    (hpost : postClaims b files now rand qf db fs = ⟨.created cid docs, dbO, fsO⟩) :
    clmIdOk cid = true ∧
    ∃ row, dbO.claims = db.claims ++ [row] ∧ row.claim_id = cid ∧ row.status = "pending" ∧
      row.created_at = instant now ∧ row.updated_at = instant now ∧
      ∃ dvs, listClaims "" cid "" dbO = .ok [⟨row, dvs⟩] ∧
        dvs.length = files.length ∧
        dvs.map DocView.file_name = files.map FileDesc.originalname := by
  obtain ⟨hv, hcid, hany, hfs, hdocs, hloop⟩ :=
    postClaims_created_inv b files now rand qf db fs cid docs dbO fsO hpost
  have hfreshAll : ∀ c ∈ db.claims, c.claim_id ≠ cid := by
    intro c hc
    have := List.any_eq_false.mp hany c hc
    simpa using this
  have hdb2 := docLoop_ok_inv cid (instant now) qf files
    ⟨db.claims ++ [newClaimRow b now cid], db.documents, db.nextDocId⟩ fs 1 dbO hstored hloop
  subst hdb2
  have hne : cid ≠ "" := hcid ▸ mkClaimId_ne_empty now.year rand (by omega)
  have hmatch : claimMatches "" cid "" = fun c => c.claim_id == cid := by
    funext c
    unfold claimMatches
    rw [show (cid == "") = false from by simpa using hne]
    simp
  refine ⟨hcid ▸ mkClaimId_ok now.year rand hy1 hy2 hr1 hr2,
    newClaimRow b now cid, rfl, rfl, rfl, rfl, rfl, ?_⟩
  have hfilterClaims : (db.claims ++ [newClaimRow b now cid]).filter
      (claimMatches "" cid "") = [newClaimRow b now cid] := by
    rw [hmatch, List.filter_append, filter_no_match db.claims cid hfreshAll]
    simp only [List.nil_append, List.filter_cons, List.filter_nil]
    rw [show ((newClaimRow b now cid).claim_id == cid) = true from by
      unfold newClaimRow; simp]
    simp
  have hdocsFor : docsFor ⟨db.claims ++ [newClaimRow b now cid],
      db.documents ++ mkDocs cid (instant now) db.nextDocId files,
      db.nextDocId + files.length⟩ cid
      = (mkDocs cid (instant now) db.nextDocId files).map
          (fun d => (⟨d.id, d.file_name, d.file_path⟩ : DocView)) := by
    unfold docsFor
    have holdnone : ∀ d ∈ db.documents, d.claim_id ≠ cid := by
      intro d hd
      obtain ⟨c, hc, hdc⟩ := hfk d hd
      rw [hdc]
      exact hfreshAll c hc
    rw [show (⟨db.claims ++ [newClaimRow b now cid],
        db.documents ++ mkDocs cid (instant now) db.nextDocId files,
        db.nextDocId + files.length⟩ : DB).documents
      = db.documents ++ mkDocs cid (instant now) db.nextDocId files from rfl]
    rw [List.filter_append, doc_filter_no_match db.documents cid holdnone,
      mkDocs_filter_self cid (instant now) files db.nextDocId]
    simp
  refine ⟨(mkDocs cid (instant now) db.nextDocId files).map
      (fun d => (⟨d.id, d.file_name, d.file_path⟩ : DocView)), ?_, ?_, ?_⟩
  · unfold listClaims
    rw [if_neg (by simp)]
    rw [show (⟨db.claims ++ [newClaimRow b now cid],
        db.documents ++ mkDocs cid (instant now) db.nextDocId files,
        db.nextDocId + files.length⟩ : DB).claims
      = db.claims ++ [newClaimRow b now cid] from rfl]
    rw [hfilterClaims]
    rw [show ([newClaimRow b now cid].insertionSort createdDesc) = [newClaimRow b now cid]
      from rfl]
    simp only [List.map_cons, List.map_nil]
    rw [show (newClaimRow b now cid).claim_id = cid from rfl]
    rw [hdocsFor]
  · rw [List.length_map, mkDocs_length]
  · rw [List.map_map]
    rw [show (DocView.file_name ∘ fun d : DocumentRow =>
        (⟨d.id, d.file_name, d.file_path⟩ : DocView)) = DocumentRow.file_name from rfl]
    exact mkDocs_names cid (instant now) files db.nextDocId

/-- A concrete run of C2: one attachment, empty tables; the submission
is answered 201 with id `CLM-2025-1234`, and the subsequent list by
that id returns exactly the pending claim with the one document. -/
theorem c2_successful_submission_witness :
    clmIdOk "CLM-2025-1234" = true ∧
    ∃ row, (postClaims ⟨"Jo", "a@gmail.com", "ATS0123", "Eng", "2025-10-12", "1500.50", "d", "t"⟩
        [⟨"r.pdf", "p1"⟩] ⟨2025, 9, 12, 3600000⟩ 1234 (fun _ => false) ⟨[], [], 1⟩
        [("p1", "B")]).db.claims = [] ++ [row] ∧
      row.claim_id = "CLM-2025-1234" ∧ row.status = "pending" ∧
      row.created_at = instant ⟨2025, 9, 12, 3600000⟩ ∧
      row.updated_at = instant ⟨2025, 9, 12, 3600000⟩ ∧
      ∃ dvs, listClaims "" "CLM-2025-1234" ""
          (postClaims ⟨"Jo", "a@gmail.com", "ATS0123", "Eng", "2025-10-12", "1500.50", "d", "t"⟩
            [⟨"r.pdf", "p1"⟩] ⟨2025, 9, 12, 3600000⟩ 1234 (fun _ => false) ⟨[], [], 1⟩
            [("p1", "B")]).db = .ok [⟨row, dvs⟩] ∧
        dvs.length = [(⟨"r.pdf", "p1"⟩ : FileDesc)].length ∧
        dvs.map DocView.file_name = [(⟨"r.pdf", "p1"⟩ : FileDesc)].map FileDesc.originalname := by
  have h := c2_successful_submission
    ⟨"Jo", "a@gmail.com", "ATS0123", "Eng", "2025-10-12", "1500.50", "d", "t"⟩
    [⟨"r.pdf", "p1"⟩] ⟨2025, 9, 12, 3600000⟩ 1234 (fun _ => false) ⟨[], [], 1⟩ [("p1", "B")]
    "CLM-2025-1234" [("r.pdf", "p1")]
    (postClaims ⟨"Jo", "a@gmail.com", "ATS0123", "Eng", "2025-10-12", "1500.50", "d", "t"⟩
      [⟨"r.pdf", "p1"⟩] ⟨2025, 9, 12, 3600000⟩ 1234 (fun _ => false) ⟨[], [], 1⟩
      [("p1", "B")]).db
    [("p1", "B")]
    (by intro d hd; cases hd) (by decide) (by decide) (by decide) (by decide) (by decide)
    (by decide)
  exact ⟨h.1, h.2⟩

end ClaimPortal
